import Mathlib

/-!
Shallow embedding of `httpstat.py`: a polling HTTP monitor that keeps a
bounded sliding window of per-probe latencies and prints summary statistics
on every successful tick.  Durations are modelled as rationals (the Python
floats), window contents as Lean lists (Python lists, oldest first).
Fallible Python operations (indexing `l[-1]`, `min`/`max` on a possibly
empty list, `numpy.mean`/`numpy.std` of an empty array) are modelled with
`Option`.
-/

namespace Httpstat

/-! ## Sliding window (main loop, lines 176-183 of httpstat.py) -/

/-- One push into a window of capacity `C`, exactly as the main loop does it:
if the current length has reached `num_datapoints` the list is shifted left
(Python `l[1:] + [x]`, dropping the single oldest sample), otherwise the
sample is appended (`l.append(x)`). -/
def push (C : ℕ) (l : List ℚ) (x : ℚ) : List ℚ :=
  if C ≤ l.length then l.drop 1 ++ [x] else l ++ [x]

/-- The window obtained by starting empty and pushing the samples of `xs`
in order. -/
def pushAll (C : ℕ) (xs : List ℚ) : List ℚ :=
  xs.foldl (push C) []

/-! ## Statistics (main loop, lines 186-193) -/

/-- Python `l[-1]`: the most recent sample, `none` on an empty list
(IndexError). -/
def pyLast (l : List ℚ) : Option ℚ :=
  l.getLast?

/-- Python `min(l)`: fold of binary `min` over the list, `none` on an empty
list (ValueError). -/
def pyMin : List ℚ → Option ℚ
  | [] => none
  | x :: xs => some (xs.foldl min x)

/-- Python `max(l)`: fold of binary `max` over the list, `none` on an empty
list (ValueError). -/
def pyMax : List ℚ → Option ℚ
  | [] => none
  | x :: xs => some (xs.foldl max x)

/-- numpy.mean: the sum of the array divided by its length; `none` for the
empty array (numpy yields nan with a warning). -/
def npMean (l : List ℚ) : Option ℚ :=
  if l.length = 0 then none else some (l.sum / l.length)

/-- The square of numpy.std with its default `ddof=0`: the mean of the
squared deviations from the mean.  numpy.std itself is the square root of
this quantity; since the square root is injective on nonnegatives, the
pre-root value determines it, and it is the value we reason about. -/
def npStdSq (l : List ℚ) : Option ℚ :=
  match npMean l with
  | none => none
  | some m => npMean (l.map fun x => (x - m) ^ 2)

/-- One output row of the monitor (line 188-193): domain, status code and
the six numeric fields handed to format_floats, in source order.  The
stddev field is represented by its square (see npStdSq). -/
structure Row where
  domain : String
  status : ℕ
  last : Option ℚ
  minv : Option ℚ
  maxv : Option ℚ
  avg : Option ℚ
  stdSq : Option ℚ
  netTime : Option ℚ
  deriving Repr, DecidableEq

/-- The row built on a successful tick, from the GET window (`page_array`)
and the HEAD window: `[page_array[-1], min(page_array), max(page_array),
numpy.mean(page_array), numpy.std(page_array), head[-1]]`. -/
def mkRow (domain : String) (status : ℕ) (pageArray headArray : List ℚ) : Row :=
  { domain := domain
    status := status
    last := pyLast pageArray
    minv := pyMin pageArray
    maxv := pyMax pageArray
    avg := npMean pageArray
    stdSq := npStdSq pageArray
    netTime := pyLast headArray }

/-! ## Spec-side statistics definitions (for the refinement claim about
summarize).  These are written from the specification text, to be compared
with the code-side definitions above. -/

/-- Modelled from the spec: the arithmetic mean over the full window
contents. -/
def specMean (l : List ℚ) : ℚ :=
  l.sum / l.length

/-- Modelled from the spec: the population variance, the sum of squared
deviations from the mean divided by N (not N - 1).  The population standard
deviation of the spec is its square root. -/
def popVariance (l : List ℚ) : ℚ :=
  ((l.map fun x => (x - specMean l) ^ 2).sum) / l.length

/-! ## Probe executor: fetch_url (lines 52-76) -/

/-- The two request kinds the requests library is asked to perform. -/
inductive HttpAction where
  | headReq
  | getReq
  deriving Repr, DecidableEq

/-- One HTTP request as issued to the requests library: which call was
made, with which url and timeout, and which extra headers were passed to
the call (requests.head / requests.get are invoked with url and timeout
only, so no extra headers travel with the request). -/
structure HttpRequest where
  action : HttpAction
  url : String
  timeout : ℚ
  extraHeaders : List (String × String)
  deriving Repr, DecidableEq

/-- The headers dict built at line 59 of fetch_url, meant to identify the
monitor to analysis tools. -/
def identifyingHeaders : List (String × String) :=
  [("User-Agent", "httpstat monitor")]

/-- Boolean test that `pre` is a prefix of the second list (character
lists). -/
def charsPrefix : List Char → List Char → Bool
  | [], _ => true
  | _ :: _, [] => false
  | a :: as, b :: bs => (a == b) && charsPrefix as bs

/-- Python substring containment `needle in hay`, on character lists: some
suffix of `hay` starts with `needle`. -/
def containsSub (needle : List Char) : List Char → Bool
  | [] => charsPrefix needle []
  | b :: bs => charsPrefix needle (b :: bs) || containsSub needle bs

/-- Python `sub in s` on strings. -/
def strIn (sub s : String) : Bool :=
  containsSub sub.toList s.toList

/-- fetch_url, lines 52-76: dispatches on the `method` string with Python
substring tests (`if HEAD in method ... elif GET in method ... else
raise`), issuing the corresponding requests-library call with url and
timeout only; any other method raises an Exception, modelled as `.error`.
The locally built headers dict is never passed to the call. -/
def fetch_url (url : String) (timeout : ℚ) (method : String) : Except String HttpRequest :=
  if strIn "HEAD" method then
    .ok { action := .headReq, url := url, timeout := timeout, extraHeaders := [] }
  else if strIn "GET" method then
    .ok { action := .getReq, url := url, timeout := timeout, extraHeaders := [] }
  else
    .error "unrecognized HTTP method"

/-! ## td_secs (lines 90-95) -/

/-- A normalized datetime.timedelta: days (any integer), seconds in
[0, 86400), microseconds in [0, 1000000). -/
structure Timedelta where
  days : ℤ
  seconds : ℕ
  microseconds : ℕ
  seconds_lt : seconds < 86400
  microseconds_lt : microseconds < 1000000

/-- td_secs, line 95: `obj.seconds + obj.microseconds / 1E6`.  The days
component is not consulted. -/
def td_secs (td : Timedelta) : ℚ :=
  (td.seconds : ℚ) + (td.microseconds : ℚ) / 1000000

/-- The true total duration of a timedelta in seconds:
days * 86400 + seconds + microseconds / 1E6 (Python
timedelta.total_seconds). -/
def tdTotalSeconds (td : Timedelta) : ℚ :=
  (td.days : ℚ) * 86400 + (td.seconds : ℚ) + (td.microseconds : ℚ) / 1000000

/-! ## The polling loop (main, lines 107-204) -/

/-- The configuration the loop runs under: the `-e` flag, the `-n`
capacity (num_datapoints, default 500), the domain extracted from the url
(urlparse(url).netloc), and the delay in seconds. -/
structure Config where
  external : Bool
  numDatapoints : ℕ
  domain : String
  delay : ℚ
  deriving Repr, DecidableEq

/-- The data a successful probe of one tick yields: the two elapsed
durations (td_secs of head_resp.elapsed and get_resp.elapsed) and the GET
status code.  A failed tick (any requests.RequestException from either
request) is `none` at the call site. -/
structure ProbeSuccess where
  headTime : ℚ
  getTime : ℚ
  status : ℕ
  deriving Repr, DecidableEq

/-- The observable state of one run of main's while loop: the iteration
counter, the two per-domain windows (stats[domain]), the report rows
printed so far, the sleeps performed so far (each recording the slept
delay, in order), and the exit status once sys.exit has run. -/
structure LoopState where
  iterations : ℕ
  headWin : List ℚ
  getWin : List ℚ
  rows : List Row
  sleeps : List ℚ
  exitStatus : Option ℕ
  deriving Repr, DecidableEq

/-- The state before the first tick: zero iterations, both windows empty,
nothing printed, nothing slept, no exit. -/
def initState : LoopState :=
  { iterations := 0
    headWin := []
    getWin := []
    rows := []
    sleeps := []
    exitStatus := none }

/-- One pass through the body of the while loop (lines 159-204), given the
outcome of this tick's pair of probes.  In source order: sleep unless this
is the first tick; on a probe exception log, bump `iterations` and
continue; otherwise push both elapsed samples (shifting both windows left
when the HEAD window has reached capacity, else appending to both), print
the row computed from the GET window plus the latest HEAD sample, then on
`-e` print an error and sys.exit(1) (so `iterations` is not bumped);
otherwise bump `iterations`. -/
def tick (cfg : Config) (pr : Option ProbeSuccess) (s : LoopState) : LoopState :=
  let s1 := if 1 ≤ s.iterations then { s with sleeps := s.sleeps ++ [cfg.delay] } else s
  match pr with
  | none => { s1 with iterations := s1.iterations + 1 }
  | some r =>
    let shift := cfg.numDatapoints ≤ s1.headWin.length
    let headWin := if shift then s1.headWin.drop 1 ++ [r.headTime] else s1.headWin ++ [r.headTime]
    let getWin := if shift then s1.getWin.drop 1 ++ [r.getTime] else s1.getWin ++ [r.getTime]
    let row := mkRow cfg.domain r.status getWin headWin
    let s2 := { s1 with headWin := headWin, getWin := getWin, rows := s1.rows ++ [row] }
    if cfg.external then { s2 with exitStatus := some 1 }
    else { s2 with iterations := s2.iterations + 1 }

/-- The loop guard of line 159: `count is None or iterations < count`. -/
def loopGuard (count : Option ℕ) (iterations : ℕ) : Bool :=
  match count with
  | none => true
  | some c => iterations < c

/-- The state after `fuel` passes of the while loop, probing through
`oracle` (the outcome of the probes of each pass).  A pass does nothing
once sys.exit has run or the loop guard has gone false, so the state is
eventually constant on bounded runs. -/
def runLoop (cfg : Config) (count : Option ℕ) (oracle : ℕ → Option ProbeSuccess) :
    ℕ → LoopState
  | 0 => initState
  | n + 1 =>
    let s := runLoop cfg count oracle n
    if s.exitStatus = none ∧ loopGuard count s.iterations then tick cfg (oracle n) s else s

/-- The delay/count schedule read off the positional argument arity
(lines 134-145).  `nargs` is len(args); `d1` stands for float(args[1]) and
`c2` for int(args[2]) when those arguments are present.  Defaults: delay 1,
count None; one argument also sets count = 1. -/
def schedule (nargs : ℕ) (d1 : ℚ) (c2 : ℕ) : ℚ × Option ℕ :=
  if nargs = 1 then (1, some 1)
  else if nargs = 2 then (d1, none)
  else if nargs = 3 then (d1, some c2)
  else (1, none)

/-- The bounded count of loop passes actually executed: `fuel` passes run
the tick body min fuel count times when count is bounded, fuel times when
count is None. -/
def capCount : Option ℕ → ℕ → ℕ
  | none, fuel => fuel
  | some c, fuel => min fuel c

end Httpstat

namespace Httpstat

lemma pushAll_append (C : ℕ) (xs : List ℚ) (x : ℚ) :
    pushAll C (xs ++ [x]) = push C (pushAll C xs) x := by
  simp [pushAll, List.foldl_append]

lemma pushAll_eq_drop (C : ℕ) (hC : 1 ≤ C) (xs : List ℚ) :
    pushAll C xs = xs.drop (xs.length - C) := by
  induction xs using List.reverseRecOn with
  | nil => simp [pushAll]
  | append_singleton ys x ih =>
    rw [pushAll_append, ih, push]
    by_cases h : ys.length < C
    · have h1 : ys.length - C = 0 := by omega
      have h2 : (ys ++ [x]).length - C = 0 := by simp; omega
      rw [h1, h2, List.drop_zero, List.drop_zero, if_neg (by simp [List.length_drop, h1]; omega)]
    · have hlen : (ys.drop (ys.length - C)).length = C := by
        rw [List.length_drop]; omega
      rw [if_pos (by omega), List.drop_drop]
      have h3 : (ys ++ [x]).length - C = (ys.length - C) + 1 := by simp; omega
      rw [h3, List.drop_append_of_le_length (by omega)]

/-- C1: for every positive capacity C and every sequence of pushes starting
from the empty window, the window holds at most C samples — its length is
min C (number of pushes) — and its contents are exactly the last
min C (number of pushes) pushed samples in push order (the suffix of the
push sequence obtained by dropping all but the final C), which is strict
FIFO behaviour: a push into a full window evicts exactly the single oldest
sample and appends the new one at the tail. -/
theorem sliding_window_fifo (C : ℕ) (hC : 1 ≤ C) (xs : List ℚ) :
    (pushAll C xs).length ≤ C ∧
    (pushAll C xs).length = min C xs.length ∧
    pushAll C xs = xs.drop (xs.length - C) := by
  have h := pushAll_eq_drop C hC xs
  refine ⟨?_, ?_, h⟩ <;> rw [h, List.length_drop] <;> omega

/-- Witness for C1: capacity 2, pushes [5, 7, 9]; the window ends as
[7, 9], of length 2 = min 2 3. -/
theorem sliding_window_fifo_witness :
    1 ≤ 2 ∧
    ((pushAll 2 [5, 7, 9]).length ≤ 2 ∧
     (pushAll 2 [5, 7, 9]).length = min 2 ([(5 : ℚ), 7, 9]).length ∧
     pushAll 2 [5, 7, 9] = [(5 : ℚ), 7, 9].drop ([(5 : ℚ), 7, 9].length - 2)) :=
  ⟨by decide, sliding_window_fifo 2 (by decide) [5, 7, 9]⟩

lemma foldl_min_mem (xs : List ℚ) (x : ℚ) : xs.foldl min x ∈ x :: xs := by
  induction xs generalizing x with
  | nil => simp
  | cons a as ih =>
    have h := ih (min x a)
    rcases List.mem_cons.mp h with h | h
    · rcases min_choice x a with h' | h' <;> rw [List.foldl_cons, h, h'] <;> simp
    · simp [List.foldl_cons, List.mem_cons.mpr (Or.inr h)]

lemma foldl_min_le_init (xs : List ℚ) : ∀ x : ℚ, xs.foldl min x ≤ x := by
  induction xs with
  | nil => intro x; simp
  | cons a as ih =>
    intro x
    rw [List.foldl_cons]
    exact le_trans (ih (min x a)) (min_le_left x a)

lemma foldl_min_le (xs : List ℚ) : ∀ x y : ℚ, y ∈ x :: xs → xs.foldl min x ≤ y := by
  induction xs with
  | nil => intro x y hy; simp at hy; simp [hy]
  | cons a as ih =>
    intro x y hy
    rw [List.foldl_cons]
    rcases List.mem_cons.mp hy with rfl | hy'
    · exact le_trans (foldl_min_le_init as (min y a)) (min_le_left y a)
    · rcases List.mem_cons.mp hy' with rfl | hy''
      · exact le_trans (foldl_min_le_init as (min x y)) (min_le_right x y)
      · exact ih (min x a) y (List.mem_cons.mpr (Or.inr hy''))

lemma foldl_max_mem (xs : List ℚ) (x : ℚ) : xs.foldl max x ∈ x :: xs := by
  induction xs generalizing x with
  | nil => simp
  | cons a as ih =>
    have h := ih (max x a)
    rcases List.mem_cons.mp h with h | h
    · rcases max_choice x a with h' | h' <;> rw [List.foldl_cons, h, h'] <;> simp
    · simp [List.foldl_cons, List.mem_cons.mpr (Or.inr h)]

lemma le_foldl_max_init (xs : List ℚ) : ∀ x : ℚ, x ≤ xs.foldl max x := by
  induction xs with
  | nil => intro x; simp
  | cons a as ih =>
    intro x
    rw [List.foldl_cons]
    exact le_trans (le_max_left x a) (ih (max x a))

lemma le_foldl_max (xs : List ℚ) : ∀ x y : ℚ, y ∈ x :: xs → y ≤ xs.foldl max x := by
  induction xs with
  | nil => intro x y hy; simp at hy; simp [hy]
  | cons a as ih =>
    intro x y hy
    rw [List.foldl_cons]
    rcases List.mem_cons.mp hy with rfl | hy'
    · exact le_trans (le_max_left y a) (le_foldl_max_init as (max y a))
    · rcases List.mem_cons.mp hy' with rfl | hy''
      · exact le_trans (le_max_right x y) (le_foldl_max_init as (max x y))
      · exact ih (max x a) y (List.mem_cons.mpr (Or.inr hy''))

lemma npStdSq_of_ne_nil (l : List ℚ) (hl : l ≠ []) :
    npStdSq l = some (popVariance l) := by
  have hlen : l.length ≠ 0 := fun h => hl (List.length_eq_zero.mp h)
  unfold npStdSq npMean popVariance specMean
  simp [hlen]

/-- C2: on every non-empty window, the reported statistics are: last is the
tail (most recently pushed) sample; min and max are genuine extrema of the
full window contents (members of the window bounding every sample); mean is
the arithmetic mean sum/N; and the quantity under numpy's standard
deviation is the population variance — squared deviations from the mean
divided by N, not N-1 — so the reported stddev is the population standard
deviation of the full window contents. -/
theorem summarize_stats (dom : String) (status : ℕ) (g hd : List ℚ) (hg : g ≠ []) :
    (mkRow dom status g hd).last = some (g.getLast hg) ∧
    (∃ m, (mkRow dom status g hd).minv = some m ∧ m ∈ g ∧ ∀ y ∈ g, m ≤ y) ∧
    (∃ M, (mkRow dom status g hd).maxv = some M ∧ M ∈ g ∧ ∀ y ∈ g, y ≤ M) ∧
    (mkRow dom status g hd).avg = some (specMean g) ∧
    (mkRow dom status g hd).stdSq = some (popVariance g) := by
  obtain ⟨x, xs, rfl⟩ := List.exists_cons_of_ne_nil hg
  refine ⟨?_, ?_, ?_, ?_, ?_⟩
  · exact List.getLast?_eq_getLast _ hg
  · exact ⟨xs.foldl min x, rfl, foldl_min_mem xs x, fun y hy => foldl_min_le xs x y hy⟩
  · exact ⟨xs.foldl max x, rfl, foldl_max_mem xs x, fun y hy => le_foldl_max xs x y hy⟩
  · simp [mkRow, npMean, specMean]
  · exact npStdSq_of_ne_nil (x :: xs) (by simp)

/-- Witness for C2: the window [1, 2, 3] (with HEAD window [4]) has
last = 3, min = 1, max = 3, mean = 2 and population variance 2/3. -/
theorem summarize_stats_witness :
    ([1, 2, 3] : List ℚ) ≠ [] ∧
    ((mkRow "d" 200 [1, 2, 3] [4]).last = some 3 ∧
     (∃ m, (mkRow "d" 200 [1, 2, 3] [4]).minv = some m ∧
        m ∈ ([1, 2, 3] : List ℚ) ∧ ∀ y ∈ ([1, 2, 3] : List ℚ), m ≤ y) ∧
     (∃ M, (mkRow "d" 200 [1, 2, 3] [4]).maxv = some M ∧
        M ∈ ([1, 2, 3] : List ℚ) ∧ ∀ y ∈ ([1, 2, 3] : List ℚ), y ≤ M) ∧
     (mkRow "d" 200 [1, 2, 3] [4]).avg = some (specMean [1, 2, 3]) ∧
     (mkRow "d" 200 [1, 2, 3] [4]).stdSq = some (popVariance [1, 2, 3])) := by
  refine ⟨by decide, ?_⟩
  have h := summarize_stats "d" 200 [1, 2, 3] [4] (by decide)
  exact ⟨h.1, h.2.1, h.2.2.1, h.2.2.2.1, h.2.2.2.2⟩

/-- C3: a tick whose probe pair fails (a RequestException from the HEAD or
the GET request) increments the iteration counter — consuming one unit of
the count budget — but leaves the HEAD window, the GET window and the list
of emitted report rows exactly as they were, and does not exit, so the
loop continues to the next tick. -/
theorem failed_tick_no_mutation (cfg : Config) (s : LoopState) :
    (tick cfg none s).iterations = s.iterations + 1 ∧
    (tick cfg none s).headWin = s.headWin ∧
    (tick cfg none s).getWin = s.getWin ∧
    (tick cfg none s).rows = s.rows ∧
    (tick cfg none s).exitStatus = s.exitStatus := by
  by_cases h : 1 ≤ s.iterations <;> simp [tick, h]

lemma tick_preserves_len (cfg : Config) (pr : Option ProbeSuccess) (s : LoopState)
    (h : s.headWin.length = s.getWin.length) :
    (tick cfg pr s).headWin.length = (tick cfg pr s).getWin.length := by
  rcases pr with _ | r
  · by_cases h1 : 1 ≤ s.iterations <;> simp [tick, h1, h]
  · by_cases h1 : 1 ≤ s.iterations <;>
      by_cases h2 : cfg.numDatapoints ≤ s.headWin.length <;>
        by_cases h3 : cfg.external <;>
          simp [tick, h1, h2, h3] <;> omega

/-- C9: after any number of loop passes, under any configuration, count and
probe outcomes, the HEAD window and the GET window of the tracked domain
have equal length: every successful tick appends one sample to each
(evicting one from each at capacity) and a failed tick touches neither. -/
theorem windows_equal_length (cfg : Config) (count : Option ℕ)
    (oracle : ℕ → Option ProbeSuccess) (fuel : ℕ) :
    (runLoop cfg count oracle fuel).headWin.length =
      (runLoop cfg count oracle fuel).getWin.length := by
  induction fuel with
  | zero => rfl
  | succ n ih =>
    simp only [runLoop]
    split
    · exact tick_preserves_len _ _ _ ih
    · exact ih

lemma pyMin_isSome_of_ne_nil (l : List ℚ) (hl : l ≠ []) : (pyMin l).isSome = true := by
  obtain ⟨x, xs, rfl⟩ := List.exists_cons_of_ne_nil hl
  rfl

lemma pyMax_isSome_of_ne_nil (l : List ℚ) (hl : l ≠ []) : (pyMax l).isSome = true := by
  obtain ⟨x, xs, rfl⟩ := List.exists_cons_of_ne_nil hl
  rfl

lemma npMean_isSome_of_ne_nil (l : List ℚ) (hl : l ≠ []) : (npMean l).isSome = true := by
  have hlen : l.length ≠ 0 := fun h => hl (List.length_eq_zero.mp h)
  simp [npMean, hlen]

lemma npStdSq_isSome_of_ne_nil (l : List ℚ) (hl : l ≠ []) : (npStdSq l).isSome = true := by
  rw [npStdSq_of_ne_nil l hl]
  rfl

lemma mkRow_isSome (dom : String) (status : ℕ) (g hd : List ℚ) (hg : g ≠ [])
    (hh : hd ≠ []) :
    (mkRow dom status g hd).last.isSome = true ∧
    (mkRow dom status g hd).minv.isSome = true ∧
    (mkRow dom status g hd).maxv.isSome = true ∧
    (mkRow dom status g hd).avg.isSome = true ∧
    (mkRow dom status g hd).stdSq.isSome = true ∧
    (mkRow dom status g hd).netTime.isSome = true := by
  refine ⟨?_, pyMin_isSome_of_ne_nil g hg, pyMax_isSome_of_ne_nil g hg,
    npMean_isSome_of_ne_nil g hg, npStdSq_isSome_of_ne_nil g hg, ?_⟩
  · simp [mkRow, pyLast, List.getLast?_eq_getLast _ hg]
  · simp [mkRow, pyLast, List.getLast?_eq_getLast _ hh]

/-- C5: every successful tick pushes a sample into both windows before the
reporting step, so both windows are non-empty when the row is built: the
tail lookups on the GET and HEAD windows and the min/max/mean/stddev over
the GET window all evaluate on non-empty sequences — every field of the
emitted row is a defined value, the empty-window error branch is
unreachable. -/
theorem success_tick_reports_defined (cfg : Config) (r : ProbeSuccess) (s : LoopState) :
    (tick cfg (some r) s).getWin ≠ [] ∧
    (tick cfg (some r) s).headWin ≠ [] ∧
    ∃ row, (tick cfg (some r) s).rows = s.rows ++ [row] ∧
      row.last.isSome = true ∧ row.minv.isSome = true ∧ row.maxv.isSome = true ∧
      row.avg.isSome = true ∧ row.stdSq.isSome = true ∧ row.netTime.isSome = true := by
  have hget : (tick cfg (some r) s).getWin ≠ [] := by
    by_cases h1 : 1 ≤ s.iterations <;>
      by_cases h2 : cfg.numDatapoints ≤ s.headWin.length <;>
        by_cases h3 : cfg.external <;>
          simp [tick, h1, h2, h3]
  have hhead : (tick cfg (some r) s).headWin ≠ [] := by
    by_cases h1 : 1 ≤ s.iterations <;>
      by_cases h2 : cfg.numDatapoints ≤ s.headWin.length <;>
        by_cases h3 : cfg.external <;>
          simp [tick, h1, h2, h3]
  have hrows : (tick cfg (some r) s).rows =
      s.rows ++ [mkRow cfg.domain r.status ((tick cfg (some r) s).getWin)
        ((tick cfg (some r) s).headWin)] := by
    by_cases h1 : 1 ≤ s.iterations <;>
      by_cases h2 : cfg.numDatapoints ≤ s.headWin.length <;>
        by_cases h3 : cfg.external <;>
          simp [tick, h1, h2, h3]
  refine ⟨hget, hhead,
    mkRow cfg.domain r.status ((tick cfg (some r) s).getWin) ((tick cfg (some r) s).headWin),
    hrows, ?_⟩
  have h := mkRow_isSome cfg.domain r.status _ _ hget hhead
  exact ⟨h.1, h.2.1, h.2.2.1, h.2.2.2.1, h.2.2.2.2.1, h.2.2.2.2.2⟩

lemma tick_external_false (cfg : Config) (hext : cfg.external = false)
    (pr : Option ProbeSuccess) (s : LoopState) :
    (tick cfg pr s).iterations = s.iterations + 1 ∧
    (tick cfg pr s).exitStatus = s.exitStatus ∧
    (tick cfg pr s).sleeps = s.sleeps ++ (if 1 ≤ s.iterations then [cfg.delay] else []) := by
  rcases pr with _ | r <;>
    by_cases h1 : 1 ≤ s.iterations <;>
      by_cases h2 : cfg.numDatapoints ≤ s.headWin.length <;>
        simp [tick, hext, h1, h2]

lemma replicate_append_one (k : ℕ) (d : ℚ) (hk : 1 ≤ k) :
    List.replicate (k - 1) d ++ [d] = List.replicate k d := by
  obtain ⟨m, rfl⟩ : ∃ m, k = m + 1 := ⟨k - 1, by omega⟩
  simp [List.replicate_succ']

lemma sleeps_update (k : ℕ) (d : ℚ) :
    List.replicate (k - 1) d ++ (if 1 ≤ k then [d] else []) = List.replicate k d := by
  by_cases hk : 1 ≤ k
  · rw [if_pos hk, replicate_append_one k d hk]
  · have h0 : k = 0 := by omega
    subst h0
    simp

lemma capCount_succ_of_guard (count : Option ℕ) (n : ℕ)
    (hg : loopGuard count (capCount count n) = true) :
    capCount count (n + 1) = capCount count n + 1 := by
  rcases count with _ | c
  · rfl
  · simp only [loopGuard, decide_eq_true_eq] at hg
    have hg2 : min n c < c := hg
    show min (n + 1) c = min n c + 1
    omega

lemma capCount_succ_of_not_guard (count : Option ℕ) (n : ℕ)
    (hg : ¬ loopGuard count (capCount count n) = true) :
    capCount count (n + 1) = capCount count n := by
  rcases count with _ | c
  · exact absurd rfl hg
  · simp only [loopGuard, decide_eq_true_eq] at hg
    have hg2 : ¬ min n c < c := hg
    show min (n + 1) c = min n c
    omega

lemma runLoop_progress (cfg : Config) (hext : cfg.external = false) (count : Option ℕ)
    (oracle : ℕ → Option ProbeSuccess) (fuel : ℕ) :
    (runLoop cfg count oracle fuel).exitStatus = none ∧
    (runLoop cfg count oracle fuel).iterations = capCount count fuel ∧
    (runLoop cfg count oracle fuel).sleeps =
      List.replicate (capCount count fuel - 1) cfg.delay := by
  induction fuel with
  | zero =>
    rcases count with _ | c <;> simp [runLoop, initState, capCount]
  | succ n ih =>
    obtain ⟨hexit, hiter, hsleep⟩ := ih
    by_cases hg : loopGuard count (runLoop cfg count oracle n).iterations = true
    · have hstep : runLoop cfg count oracle (n + 1) =
          tick cfg (oracle n) (runLoop cfg count oracle n) := by
        simp only [runLoop]
        rw [if_pos ⟨hexit, hg⟩]
      obtain ⟨t1, t2, t3⟩ := tick_external_false cfg hext (oracle n) (runLoop cfg count oracle n)
      have hgc : loopGuard count (capCount count n) = true := hiter ▸ hg
      have hcap := capCount_succ_of_guard count n hgc
      refine ⟨?_, ?_, ?_⟩
      · rw [hstep, t2, hexit]
      · rw [hstep, t1, hiter, hcap]
      · rw [hstep, t3, hsleep, hiter, hcap, Nat.add_sub_cancel]
        exact sleeps_update (capCount count n) cfg.delay
    · have hstep : runLoop cfg count oracle (n + 1) = runLoop cfg count oracle n := by
        simp only [runLoop]
        rw [if_neg (fun hc => hg hc.2)]
      have hgc : ¬ loopGuard count (capCount count n) = true := hiter ▸ hg
      have hcap := capCount_succ_of_not_guard count n hgc
      rw [hstep, hcap]
      exact ⟨hexit, hiter, hsleep⟩

/-- C4: the positional-argument arity fixes the schedule: one argument
gives delay 1 and count 1, two give the supplied delay with no count bound,
three give the supplied delay and count; and under those schedules (with
the external flag off) the loop runs exactly one tick with no sleep for one
argument, unboundedly many ticks for two — after any number of loop passes
it has run that many ticks, sleeping the delay before every tick except the
first — and exactly count ticks for three, again sleeping the delay before
every tick except the first. -/
theorem scheduler_arity (dp : ℕ) (dom : String) (d1 : ℚ) (c2 fuel : ℕ)
    (oracle : ℕ → Option ProbeSuccess) :
    schedule 1 d1 c2 = (1, some 1) ∧
    schedule 2 d1 c2 = (d1, none) ∧
    schedule 3 d1 c2 = (d1, some c2) ∧
    (1 ≤ fuel →
      (runLoop ⟨false, dp, dom, 1⟩ (some 1) oracle fuel).iterations = 1 ∧
      (runLoop ⟨false, dp, dom, 1⟩ (some 1) oracle fuel).sleeps = []) ∧
    ((runLoop ⟨false, dp, dom, d1⟩ none oracle fuel).iterations = fuel ∧
     (runLoop ⟨false, dp, dom, d1⟩ none oracle fuel).sleeps = List.replicate (fuel - 1) d1) ∧
    (c2 ≤ fuel →
      (runLoop ⟨false, dp, dom, d1⟩ (some c2) oracle fuel).iterations = c2 ∧
      (runLoop ⟨false, dp, dom, d1⟩ (some c2) oracle fuel).sleeps =
        List.replicate (c2 - 1) d1) := by
  refine ⟨rfl, rfl, rfl, ?_, ?_, ?_⟩
  · intro h
    obtain ⟨-, hiter, hsleep⟩ := runLoop_progress ⟨false, dp, dom, 1⟩ rfl (some 1) oracle fuel
    have hc : capCount (some 1) fuel = 1 := by
      show min fuel 1 = 1
      omega
    rw [hiter, hsleep, hc]
    simp
  · obtain ⟨-, hiter, hsleep⟩ := runLoop_progress ⟨false, dp, dom, d1⟩ rfl none oracle fuel
    exact ⟨hiter, hsleep⟩
  · intro h
    obtain ⟨-, hiter, hsleep⟩ := runLoop_progress ⟨false, dp, dom, d1⟩ rfl (some c2) oracle fuel
    have hc : capCount (some c2) fuel = c2 := by
      show min fuel c2 = c2
      omega
    rw [hiter, hsleep, hc]
    exact ⟨rfl, rfl⟩

/-- C6 counterexample: with the external flag set, a run whose single
budgeted tick fails at the probe never reaches the external-mode check:
the loop consumes its whole budget and finishes normally with no exit
status set, refuting that the process exits with status 1 regardless of
probe outcomes and before any normal monitoring work. -/
theorem external_flag_counterexample :
    (runLoop ⟨true, 500, "x", 1⟩ (some 1) (fun _ => none) 1).exitStatus = none ∧
    (runLoop ⟨true, 500, "x", 1⟩ (some 1) (fun _ => none) 1).iterations = 1 ∧
    loopGuard (some 1) (runLoop ⟨true, 500, "x", 1⟩ (some 1) (fun _ => none) 1).iterations
      = false :=
  ⟨rfl, rfl, rfl⟩

/-- C6 amended: the external-mode check sits at the end of the
successful-tick path, so with the flag set the process logs the
not-implemented error and exits with status 1 on the first successful tick
— after that tick's samples are pushed and its report row emitted, and
before the iteration counter is bumped — while a tick whose probe fails
leaves the exit status untouched, so a run whose probes all fail never
performs the exit. -/
theorem external_flag_amended (cfg : Config) (hext : cfg.external = true)
    (r : ProbeSuccess) (s : LoopState) :
    ((tick cfg (some r) s).exitStatus = some 1 ∧
     (tick cfg (some r) s).iterations = s.iterations ∧
     (tick cfg (some r) s).getWin ≠ [] ∧
     (∃ row, (tick cfg (some r) s).rows = s.rows ++ [row])) ∧
    (tick cfg none s).exitStatus = s.exitStatus := by
  constructor
  · by_cases h1 : 1 ≤ s.iterations <;>
      by_cases h2 : cfg.numDatapoints ≤ s.headWin.length <;>
        simp [tick, hext, h1, h2]
  · by_cases h1 : 1 ≤ s.iterations <;> simp [tick, h1]

/-- Witness for C6 amended: a concrete external-mode configuration on the
initial state, with a successful probe and with a failed probe. -/
theorem external_flag_amended_witness :
    (⟨true, 500, "x", 1⟩ : Config).external = true ∧
    (((tick ⟨true, 500, "x", 1⟩ (some ⟨1, 2, 200⟩) initState).exitStatus = some 1 ∧
      (tick ⟨true, 500, "x", 1⟩ (some ⟨1, 2, 200⟩) initState).iterations =
        initState.iterations ∧
      (tick ⟨true, 500, "x", 1⟩ (some ⟨1, 2, 200⟩) initState).getWin ≠ [] ∧
      (∃ row, (tick ⟨true, 500, "x", 1⟩ (some ⟨1, 2, 200⟩) initState).rows =
        initState.rows ++ [row])) ∧
     (tick ⟨true, 500, "x", 1⟩ none initState).exitStatus = initState.exitStatus) :=
  ⟨rfl, external_flag_amended ⟨true, 500, "x", 1⟩ rfl ⟨1, 2, 200⟩ initState⟩

/-- C7 counterexample: the method dispatch uses Python substring tests, so
the method string HEADER — which is neither HEAD nor GET — is accepted and
performs a HEAD request instead of raising. -/
theorem fetch_url_method_counterexample :
    ("HEADER" : String) ≠ "HEAD" ∧ ("HEADER" : String) ≠ "GET" ∧
    fetch_url "http://x" 5 "HEADER" =
      .ok { action := .headReq, url := "http://x", timeout := 5, extraHeaders := [] } :=
  ⟨by decide, by decide, rfl⟩

/-- C7 amended: fetch_url dispatches on substring containment, not string
equality: any method string containing HEAD performs a HEAD request, any
other containing GET performs a GET request, and only a method containing
neither raises the unrecognized-method exception; in particular the exact
strings HEAD and GET each perform the request of that method. -/
theorem fetch_url_method_dispatch (url : String) (t : ℚ) (method : String) :
    (strIn "HEAD" method = true →
      fetch_url url t method = .ok ⟨.headReq, url, t, []⟩) ∧
    (strIn "HEAD" method = false → strIn "GET" method = true →
      fetch_url url t method = .ok ⟨.getReq, url, t, []⟩) ∧
    (strIn "HEAD" method = false → strIn "GET" method = false →
      fetch_url url t method = .error "unrecognized HTTP method") ∧
    fetch_url url t "HEAD" = .ok ⟨.headReq, url, t, []⟩ ∧
    fetch_url url t "GET" = .ok ⟨.getReq, url, t, []⟩ := by
  refine ⟨?_, ?_, ?_, rfl, rfl⟩
  · intro h
    simp [fetch_url, h]
  · intro h1 h2
    simp [fetch_url, h1, h2]
  · intro h1 h2
    simp [fetch_url, h1, h2]

/-- C8: the identifying User-Agent headers dict is built inside fetch_url
but never passed to the requests-library call, so every request the probe
executor issues travels with no extra headers at all — in particular
without the identifying header — contradicting the source's own comment
that the header is added to identify the monitor. -/
theorem user_agent_missing (url : String) (t : ℚ) (method : String) (req : HttpRequest)
    (h : fetch_url url t method = .ok req) :
    req.extraHeaders = [] ∧
    ∀ hdr ∈ identifyingHeaders, hdr ∉ req.extraHeaders := by
  have hempty : req.extraHeaders = [] := by
    unfold fetch_url at h
    by_cases h1 : strIn "HEAD" method
    · simp [h1] at h
      rw [← h]
    · by_cases h2 : strIn "GET" method
      · simp [h1, h2] at h
        rw [← h]
      · simp [h1, h2] at h
  refine ⟨hempty, ?_⟩
  intro hdr hmem
  rw [hempty]
  simp

/-- Witness for C8: the HEAD probe request carries no headers, so the
identifying User-Agent header is absent from it. -/
theorem user_agent_missing_witness :
    fetch_url "http://x" 5 "HEAD" =
      .ok (⟨.headReq, "http://x", 5, []⟩ : HttpRequest) ∧
    ((⟨.headReq, "http://x", 5, []⟩ : HttpRequest).extraHeaders = [] ∧
     ∀ hdr ∈ identifyingHeaders,
       hdr ∉ (⟨.headReq, "http://x", 5, []⟩ : HttpRequest).extraHeaders) :=
  ⟨rfl, user_agent_missing "http://x" 5 "HEAD" _ rfl⟩

/-- C10: td_secs reads only the seconds and microseconds components of a
timedelta, so it equals the timedelta's true total duration in seconds
exactly when the days component is zero; a duration of exactly 1 day maps
to 0 seconds. -/
theorem td_secs_days_dropped :
    td_secs ⟨1, 0, 0, by decide, by decide⟩ = 0 ∧
    ∀ td : Timedelta, td_secs td = tdTotalSeconds td ↔ td.days = 0 := by
  constructor
  · simp [td_secs]
  · intro td
    unfold td_secs tdTotalSeconds
    constructor
    · intro h
      have h86 : (td.days : ℚ) * 86400 = 0 := by linarith
      have hd : (td.days : ℚ) = 0 := by
        rcases mul_eq_zero.mp h86 with h0 | h0
        · exact h0
        · norm_num at h0
      exact_mod_cast hd
    · intro h
      rw [h]
      norm_num

end Httpstat
